import Mathlib

/-!
Verification development for the `latestrelayer` control plane.

The definitions below are shallow embeddings of the Python sources:
* `src/stream-auto-switcher/auto_switcher.py` (stats probe + scene decider),
* `src/controller/container_controller.py` (scene/privacy store, service
  controller, HTTP routing, WebSocket fan-out and log streaming).

Machine floats (`time.monotonic`, bitrate division) are modelled with `ℚ`,
Python strings with Lean `String` (or an abstract line type `α` for log
lines), Python `None`/exceptions with `Option`/`Except`.
-/

namespace Relayer

/-! ## Stats probe and scene decider (`auto_switcher.py`) -/

/-- A switch target, the `src` argument of `call_switch`. -/
inductive Src where
  | cam
  | offline
deriving DecidableEq

/-- One parsed observation of the camera stream, the dict returned by
`parse_stream_stats` (auto_switcher.py lines 77-137). -/
structure Sample where
  exists_ : Bool
  publishing : Bool
  bw_video : ℕ
  nclients : ℕ
deriving DecidableEq

/-- Environment configuration of the auto-switcher (lines 32-37).
`MIN_BITRATE_KBPS` is parsed with `int(...)`, the two timers with
`float(...)`. -/
structure Config where
  min_bitrate_kbps : ℤ
  cam_miss_timeout : ℚ
  cam_back_stability : ℚ

/-- `check_bitrate_sufficient` (lines 140-164): returns `False` outright for
`bw == 0`, otherwise compares `(bytes * 8) / 1000` kbps with the threshold. -/
def check_bitrate_sufficient (cfg : Config) (bw_video_bytes_per_sec : ℕ) : Bool :=
  if bw_video_bytes_per_sec = 0 then
    false
  else
    decide (((bw_video_bytes_per_sec : ℚ) * 8) / 1000 ≥ (cfg.min_bitrate_kbps : ℚ))

/-- `is_cam_alive_and_healthy` (lines 167-183): exists, publishing, and
sufficient bitrate, with early `return False` chained as conjunction. -/
def is_cam_alive_and_healthy (cfg : Config) (stats : Sample) : Bool :=
  stats.exists_ && stats.publishing && check_bitrate_sufficient cfg stats.bw_video

/-- The spec's health formula, written exactly as spec §3 states it:
`exists ∧ publishing ∧ (video_bw_bps × 8 / 1000) ≥ MIN_BITRATE_KBPS`.
Kept separate from `is_cam_alive_and_healthy` so the two can be compared. -/
def healthySpecFormula (cfg : Config) (stats : Sample) : Bool :=
  stats.exists_ && stats.publishing &&
    decide (((stats.bw_video : ℚ) * 8) / 1000 ≥ (cfg.min_bitrate_kbps : ℚ))

/-- The decider's mutable state (lines 50-53), plus the Python local `stats`
of `main`, which is unbound (`none`) until the first successful fetch. -/
structure DecState where
  last_seen_cam : ℚ
  active_src : Option Src
  cam_stable_since : Option ℚ
  stats : Option Sample
deriving DecidableEq

/-- One iteration's inputs: the fetch outcome (`none` = the stat fetch or
parse raised), the monotonic time `now`, and whether `call_switch` would
succeed if invoked this iteration. -/
structure LoopInput where
  fetch : Option Sample
  now : ℚ
  switchOk : Bool
deriving DecidableEq

/-- One iteration of the `while True` loop of `main`
(auto_switcher.py lines 200-264).

Returns `none` when the body would raise `NameError` by reading the local
`stats` before any fetch ever bound it (lines 249-252); otherwise `some` of
the new state and the switch emitted this iteration (`some src` exactly when
`call_switch src` was invoked and succeeded). -/
def loopStep (cfg : Config) (st : DecState) (inp : LoopInput) :
    Option (DecState × Option Src) :=
  match inp.fetch with
  | some s =>
    -- fetch succeeded: `stats` is (re)bound, `cam_healthy` computed from it
    let st := { st with stats := some s }
    if is_cam_alive_and_healthy cfg s then
      -- healthy branch (lines 217-240)
      let st := { st with last_seen_cam := inp.now }
      if st.active_src = some Src.cam then
        some (st, none)
      else
        match st.cam_stable_since with
        | none => some ({ st with cam_stable_since := some inp.now }, none)
        | some t0 =>
          if inp.now - t0 ≥ cfg.cam_back_stability then
            if inp.switchOk then
              some ({ st with active_src := some Src.cam, cam_stable_since := none },
                some Src.cam)
            else
              some ({ st with cam_stable_since := none }, none)
          else
            some (st, none)
    else
      unhealthyStep cfg st inp
  | none =>
    -- fetch raised: `cam_healthy = False`, `stats` keeps its previous binding
    unhealthyStep cfg st inp
where
  /-- The `else` branch of the state machine (lines 241-262): clear the
  stability timer and, when LIVE and past the miss timeout, read
  `stats["exists"]` / `stats["bw_video"]` for the log line and switch to
  offline. Reading an unbound `stats` is the `none` (NameError) case. -/
  unhealthyStep (cfg : Config) (st : DecState) (inp : LoopInput) :
      Option (DecState × Option Src) :=
    let st := { st with cam_stable_since := none }
    if st.active_src = some Src.cam then
      if inp.now - st.last_seen_cam ≥ cfg.cam_miss_timeout then
        match st.stats with
        | none => none
        | some _ =>
          if inp.switchOk then
            some ({ st with active_src := some Src.offline }, some Src.offline)
          else
            some (st, none)
      else
        some (st, none)
    else
      some (st, none)

/-- The state after the startup sequence of `main` (lines 188-195): module
initialisation sets `last_seen_cam = time.monotonic()` (modelled as `t0`),
`active_src = None`, `cam_stable_since = None`; `main` then attempts
`call_switch("offline")` once.  Result: the state entering the loop and the
initial emission (`some offline` iff that call succeeded). -/
def initState (ok0 : Bool) (t0 : ℚ) : DecState × Option Src :=
  (⟨t0, if ok0 then some Src.offline else none, none, none⟩,
    if ok0 then some Src.offline else none)

/-- Run the monitoring loop over a list of per-iteration inputs, collecting
the successfully emitted switches in order; `none` if any iteration raises. -/
def loopRun (cfg : Config) (st : DecState) :
    List LoopInput → Option (DecState × List Src)
  | [] => some (st, [])
  | i :: is =>
    match loopStep cfg st i with
    | none => none
    | some (st', e) =>
      match loopRun cfg st' is with
      | none => none
      | some (stf, es) => some (stf, e.toList ++ es)

/-- Full emission trace of the decider process: the initial unconditional
`SWITCH(offline)` (when it succeeds) followed by the loop's emissions. -/
def deciderEmissions (cfg : Config) (ok0 : Bool) (t0 : ℚ)
    (inputs : List LoopInput) : Option (List Src) :=
  match loopRun cfg (initState ok0 t0).1 inputs with
  | none => none
  | some (_, es) => some ((initState ok0 t0).2.toList ++ es)

/-- The invariant that makes the `stats` reads of the unhealthy branch safe:
whenever the active source is the camera, a successful fetch has already
bound `stats`. -/
def statsInv (st : DecState) : Prop :=
  st.active_src = some Src.cam → st.stats.isSome

/-! ## Python string primitives

Lean's own `String.startsWith`, `String.splitOn`, … are built on substring
machinery that the kernel cannot evaluate, so the Python string primitives
used by the controller are embedded as character-list recursions. -/

/-- `str.startswith(p)`. -/
def pyStartswith (s p : String) : Bool :=
  go s.toList p.toList
where
  go : List Char → List Char → Bool
    | _, [] => true
    | [], _ :: _ => false
    | c :: cs, d :: ds => c = d && go cs ds

/-- `str.split(sep)` for a single-character separator (also the behaviour of
`"a//b".split("/") == ["a", "", "b"]` and `"".split("/") == [""]`). -/
def splitOnChar (sep : Char) : List Char → List (List Char)
  | [] => [[]]
  | c :: rest =>
    let r := splitOnChar sep rest
    if c = sep then [] :: r
    else
      match r with
      | [] => [[c]]
      | h :: t => (c :: h) :: t

/-- `str.strip("/")`: remove leading and trailing slashes. -/
def stripSlashes (s : String) : String :=
  String.mk (((s.toList.dropWhile (· = '/')).reverse.dropWhile (· = '/')).reverse)

/-- `parsed.path.strip("/").split("/")`, the `path_parts` of `do_GET`/`do_POST`. -/
def pathParts (path : String) : List String :=
  (splitOnChar '/' (stripSlashes path).toList).map String.mk

/-- `str.upper()` (ASCII, which is all the controller compares). -/
def pyUpper (s : String) : String :=
  String.mk (s.toList.map Char.toUpper)

/-- `str.lower()` (ASCII). -/
def pyLower (s : String) : String :=
  String.mk (s.toList.map Char.toLower)

/-- `str.capitalize()`: first character upper-cased, the rest lower-cased. -/
def pyCapitalize (s : String) : String :=
  match s.toList with
  | [] => ""
  | c :: cs => String.mk (c.toUpper :: cs.map Char.toLower)

/-! ## Scene/privacy store (`container_controller.py`, `ScenePrivacyManager`) -/

/-- The observable events of one accessor call on the shared `SceneState`
cell, in program order. -/
inductive LockEvent where
  | acquire
  | mutate (field : String)
  | persist
  | notifyMultiplexer
  | callback (i : ℕ)
  | release
deriving DecidableEq

/-- Event trace of `ScenePrivacyManager.set_scene` (lines 154-174): the whole
body — the scene/timestamp mutation and `_trigger_change_callbacks` included
— executes inside `with self._lock`; the mutex is released only when the
`with` block exits, i.e. after the callbacks have run. -/
def setSceneTrace (old new : String) (callbacks : ℕ) : List LockEvent :=
  [LockEvent.acquire] ++
    (if old ≠ new then
      [LockEvent.mutate "current_scene", LockEvent.mutate "scene_timestamp"] ++
        (List.range callbacks).map LockEvent.callback
    else []) ++
  [LockEvent.release]

/-- Event trace of `ScenePrivacyManager.enable_privacy` (lines 176-193): the
mutation, the persistence write, the multiplexer notification and the
callbacks all run inside `with self._lock`. -/
def enablePrivacyTrace (wasEnabled : Bool) (callbacks : ℕ) : List LockEvent :=
  [LockEvent.acquire] ++
    (if wasEnabled then []
     else
      [LockEvent.mutate "privacy_enabled", LockEvent.persist,
        LockEvent.notifyMultiplexer] ++ (List.range callbacks).map LockEvent.callback) ++
  [LockEvent.release]

/-- Event trace of `ScenePrivacyManager.disable_privacy` (lines 195-212). -/
def disablePrivacyTrace (wasEnabled : Bool) (callbacks : ℕ) : List LockEvent :=
  [LockEvent.acquire] ++
    (if wasEnabled then
      [LockEvent.mutate "privacy_enabled", LockEvent.persist,
        LockEvent.notifyMultiplexer] ++ (List.range callbacks).map LockEvent.callback
     else []) ++
  [LockEvent.release]

/-- Scan a trace tracking the mutex state; `true` iff some observer callback
is invoked while the mutex is held. -/
def callbackWhileLocked : Bool → List LockEvent → Bool
  | _, [] => false
  | _, LockEvent.acquire :: es => callbackWhileLocked true es
  | _, LockEvent.release :: es => callbackWhileLocked false es
  | locked, LockEvent.callback _ :: es => locked || callbackWhileLocked locked es
  | locked, _ :: es => callbackWhileLocked locked es

/-! ## Service controller (`ContainerController`) -/

/-- A parsed compose service (`ComposeParser.services` values, lines 281-287). -/
structure ServiceInfo where
  name : String
  full_name : String
  service_name : String
  is_manual : Bool
deriving DecidableEq

/-- The slice of a runtime container's `attrs['State']` detail bag that
`_format_detailed_status` and `_get_health_status` read; `health = ""` and
`started_at = ""` model absent keys (the `.get(..., '')` defaults). -/
structure RuntimeState where
  status : String
  health : String
  exit_code : ℤ
  started_at : String
  finished_at : String
deriving DecidableEq

/-- A container as returned by `client.containers.list` / `containers.get`. -/
structure RuntimeContainer where
  name : String
  short_id : String
  status : String
  state : RuntimeState
deriving DecidableEq

/-- `is_valid_timestamp` (lines 343-349), nested in
`_format_detailed_status`: rejects empty strings and strings starting with
`0001-` or `0000-`; every other timestamp string — the 1970 epoch included —
is accepted as valid. -/
def is_valid_timestamp (ts : String) : Bool :=
  if ts = "" then false
  else if pyStartswith ts "0001-" || pyStartswith ts "0000-" then false
  else true

/-- `_format_time_delta` (lines 409-423). `//` is Python floor division. -/
def format_time_delta (total_seconds : ℤ) : String :=
  if total_seconds < 60 then
    s!"{total_seconds} seconds"
  else if total_seconds < 3600 then
    let minutes := Int.fdiv total_seconds 60
    s!"{minutes} minute" ++ (if minutes ≠ 1 then "s" else "")
  else if total_seconds < 86400 then
    let hours := Int.fdiv total_seconds 3600
    s!"{hours} hour" ++ (if hours ≠ 1 then "s" else "")
  else
    let days := Int.fdiv total_seconds 86400
    s!"{days} day" ++ (if days ≠ 1 then "s" else "")

/-- `_format_detailed_status` (lines 332-407).

`parse` models `datetime.fromisoformat` on the (Z-normalised) timestamp
string, returning seconds since some epoch, `none` when parsing raises;
`now` is `datetime.now` in the same scale.  Returns
`(status_detail, started_at, finished_at)` with the two timestamps filtered
through `is_valid_timestamp`. -/
def _format_detailed_status (parse : String → Option ℤ) (now : ℤ)
    (state : RuntimeState) : String × Option String × Option String :=
  let started_at := if is_valid_timestamp state.started_at then
    some state.started_at else none
  let finished_at := if is_valid_timestamp state.finished_at then
    some state.finished_at else none
  let code := state.exit_code
  if state.status = "exited" then
    match finished_at with
    | some fts =>
      match parse fts with
      | some t =>
        let ago := format_time_delta (now - t)
        (s!"Exited ({code}) {ago} ago", started_at, finished_at)
      | none => (s!"Exited ({code})", started_at, finished_at)
    | none => (s!"Exited ({code})", started_at, finished_at)
  else if state.status = "running" then
    match started_at with
    | some sts =>
      match parse sts with
      | some t =>
        let uptime := format_time_delta (now - t)
        if state.health = "healthy" then
          (s!"Up {uptime} (healthy)", started_at, finished_at)
        else if state.health = "unhealthy" then
          (s!"Up {uptime} (unhealthy)", started_at, finished_at)
        else if state.health = "starting" then
          (s!"Up {uptime} (health: starting)", started_at, finished_at)
        else
          (s!"Up {uptime}", started_at, finished_at)
      | none => ("Up", started_at, finished_at)
    | none => ("Up", started_at, finished_at)
  else if state.status = "created" then ("Created", started_at, finished_at)
  else if state.status = "paused" then ("Paused", started_at, finished_at)
  else if state.status = "restarting" then ("Restarting", started_at, finished_at)
  else (pyCapitalize state.status, started_at, finished_at)

/-- `_get_health_status` (lines 314-330): a health string only for running
containers that configure a healthcheck. -/
def _get_health_status (state : RuntimeState) : Option String :=
  if state.status = "running" then
    if state.health = "" then none else some state.health
  else none

/-- One element of the `containers` list in a `list_containers` result.
`is_manual`, `startedAt` and `finishedAt` are `Option` because the code
omits these dict keys on some branches. -/
structure ContainerEntry where
  name : String
  full_name : String
  status : String
  status_detail : String
  running : Bool
  health : Option String
  id : Option String
  created : Bool
  is_manual : Option Bool
  startedAt : Option String
  finishedAt : Option String
deriving DecidableEq

/-- Result of `list_containers`: the merged list plus the optional
`warning` key. -/
structure ListResult where
  containers : List ContainerEntry
  warning : Option String
deriving DecidableEq

/-- `ContainerController.list_containers` (lines 785-889).

`runtime` is the outcome of `self.client.containers.list(all=True)`; the
`Except.error` case is the `docker.errors.DockerException` branch (timeout
or API error), answered with the compose-services fallback and a warning —
not by raising.  On success the compose services are merged with the
containers whose runtime name matches a declared `full_name`; when several
match, the `containers_by_name` dict keeps the last. -/
def list_containers (parse : String → Option ℤ) (now : ℤ)
    (services : List ServiceInfo)
    (runtime : Except String (List RuntimeContainer)) :
    Except String ListResult :=
  match runtime with
  | Except.error _ =>
    Except.ok
      ⟨services.map (fun svc =>
          ⟨svc.name, svc.full_name, "unknown", "Docker API unavailable", false,
            none, none, false, some svc.is_manual, none, none⟩),
        some "Docker API timeout - showing incomplete data"⟩
  | Except.ok all_containers =>
    Except.ok
      ⟨services.map (fun svc =>
          match (all_containers.filter (fun c => c.name = svc.full_name)).getLast? with
          | some c =>
            let d := _format_detailed_status parse now c.state
            ⟨svc.name, c.name, c.status, d.1, c.status = "running",
              _get_health_status c.state, some c.short_id, true, none,
              d.2.1, d.2.2⟩
          | none =>
            ⟨svc.name, svc.full_name, "not-created", "Not created", false,
              none, none, false, some svc.is_manual, none, none⟩),
        none⟩

/-! ## HTTP request surface (`Handler.do_GET` / `Handler.do_POST`) -/

/-- Failures raised by the runtime client's `containers.get`. -/
inductive DockerErr where
  | notFound
  | apiError
deriving DecidableEq

/-- Exceptions the controller operations raise towards the HTTP handler. -/
inductive CtrlError where
  | notFound
  | runtime
deriving DecidableEq

/-- `ContainerController.get_container_name` (lines 425-432): compose lookup
first, `{project}-{short}` fallback. -/
def get_container_name (services : List ServiceInfo) (project : String)
    (short : String) : String :=
  match services.find? (fun s => s.name = short) with
  | some s => s.full_name
  | none => project ++ "-" ++ short

/-- The status-code-relevant behaviour of `ContainerController.get_status`
(lines 751-783): `ValueError` on a missing container, `RuntimeError` on an
API error. `containersGet` models `self.client.containers.get`. -/
def get_statusE (services : List ServiceInfo) (project : String)
    (containersGet : String → Except DockerErr RuntimeContainer)
    (short : String) : Except CtrlError RuntimeContainer :=
  match containersGet (get_container_name services project short) with
  | Except.ok c => Except.ok c
  | Except.error DockerErr.notFound => Except.error CtrlError.notFound
  | Except.error DockerErr.apiError => Except.error CtrlError.runtime

/-- The status-code-relevant behaviour of `ContainerController.get_logs`
(lines 995-1028): same exception discipline as `get_status`. -/
def get_logsE (services : List ServiceInfo) (project : String)
    (containersGet : String → Except DockerErr RuntimeContainer)
    (short : String) : Except CtrlError RuntimeContainer :=
  match containersGet (get_container_name services project short) with
  | Except.ok c => Except.ok c
  | Except.error DockerErr.notFound => Except.error CtrlError.notFound
  | Except.error DockerErr.apiError => Except.error CtrlError.runtime

/-- HTTP status code produced by `Handler.do_GET` (lines 1577-1678) for a
request path (query string already removed by `urlparse`). -/
def do_GET (services : List ServiceInfo) (project : String)
    (containersGet : String → Except DockerErr RuntimeContainer)
    (path : String) : ℕ :=
  if path = "/health" then 200
  else if path = "/scene" then 200
  else if path = "/privacy" then 200
  else if path = "/state" then 200
  else if path = "/containers" then 200
  else
    match pathParts path with
    | [p0, p1, p2] =>
      if p0 = "container" ∧ p2 = "status" then
        match get_statusE services project containersGet p1 with
        | Except.ok _ => 200
        | Except.error CtrlError.notFound => 404
        | Except.error CtrlError.runtime => 500
      else if p0 = "container" ∧ p2 = "logs" then
        match get_logsE services project containersGet p1 with
        | Except.ok _ => 200
        | Except.error CtrlError.notFound => 404
        | Except.error CtrlError.runtime => 500
      else 404
    | _ => 404

/-- HTTP status code produced by `Handler.do_POST` (lines 1488-1575).

The four lifecycle actions call `start_container` / `stop_container` /
`restart_container` / `create_and_start_container`, each of which only
spawns a background thread and returns an acknowledgement dict, so the
handler answers 202 without ever consulting the runtime — `containersGet`
is deliberately unused on that branch, exactly as in the code. -/
def do_POST (containersGet : String → Except DockerErr RuntimeContainer)
    (path : String) : ℕ :=
  match pathParts path with
  | [p0, p1] =>
    if p0 = "scene" then
      if pyUpper p1 = "LIVE" ∨ pyUpper p1 = "FALLBACK" then 200 else 400
    else if p0 = "privacy" then
      if pyLower p1 = "enable" ∨ pyLower p1 = "disable" then 200 else 400
    else 404
  | [p0, _, action] =>
    if p0 = "container" then
      if action = "start" ∨ action = "stop" ∨ action = "restart" ∨
          action = "create-and-start" then 202
      else 404
    else 404
  | _ => 404

/-! ## WebSocket fan-out (`WebSocketServer`, lines 1042-1440) -/

/-- A connected WebSocket client, identified abstractly. -/
abbrev Client := ℕ

/-- The subscriber-tracking state of `WebSocketServer`: `self.clients` (a
set) and `self.log_subscribers` (`{container_name: {client: ts}}`, the
timestamps abstracted away). -/
structure WsState where
  clients : List Client
  logSubs : List (String × List Client)
deriving DecidableEq

/-- `unregister_client` (lines 1122-1134): discard the client from the
client set and from every log-subscription dict, deleting container keys
left with no subscribers. -/
def unregister_client (st : WsState) (c : Client) : WsState :=
  ⟨st.clients.filter (fun x => x != c),
    (st.logSubs.map (fun p => (p.1, p.2.filter (fun x => x != c)))).filter
      (fun p => !p.2.isEmpty)⟩

/-- `register_client` (lines 1110-1120): add the client, then try
`send_initial_state`; a failure there is caught and only logged
(`sendFails` records it), so the client is **not** removed. -/
def register_client (st : WsState) (c : Client) (sendFails : Bool) : WsState :=
  ⟨c :: st.clients, st.logSubs⟩

/-- One `broadcast_status_change` (lines 1167-1195) — scene/privacy
broadcasts (lines 1075-1108) follow the same discipline.  `fails c = true`
models `client.send` raising for `c`.  Every client is attempted (failures
only mark the client `disconnected`), so the delivered set is exactly the
non-failing clients; afterwards each disconnected client is passed to
`unregister_client`. -/
def broadcast_status_change (st : WsState) (fails : Client → Bool) :
    List Client × WsState :=
  let delivered := st.clients.filter (fun c => !fails c)
  let disconnected := st.clients.filter fails
  (delivered, disconnected.foldl unregister_client st)

/-- `self.log_subscribers.get(container_name, {})` as a subscriber list. -/
def lookupSubs (st : WsState) (cn : String) : List Client :=
  match st.logSubs.find? (fun p => p.1 == cn) with
  | some p => p.2
  | none => []

/-- The send/cleanup phase of one `stream_logs` tick for container `cn`
(lines 1341-1362): each subscriber of `cn` is attempted; a failing
subscriber is deleted from `subscribers` — the dict of *that* container
only — while `self.clients` and the other containers' dicts are untouched. -/
def stream_logs_cleanup (st : WsState) (cn : String) (fails : Client → Bool) :
    List Client × WsState :=
  ((lookupSubs st cn).filter (fun c => !fails c),
    ⟨st.clients,
      st.logSubs.map (fun p =>
        if p.1 = cn then (p.1, p.2.filter (fun c => !fails c)) else p)⟩)

/-- `c` has been removed everywhere: from the client set and from every
log-subscription set. -/
def removedEverywhere (c : Client) (st : WsState) : Prop :=
  c ∉ st.clients ∧ ∀ p ∈ st.logSubs, c ∉ p.2

/-! ## Log streaming deltas (`stream_logs`, lines 1302-1371)

Log lines are modelled by an abstract type `α` with decidable equality
(Python compares them as strings). -/

/-- The delta computation of one `stream_logs` tick (lines 1320-1334): all
fetched lines when no anchor exists yet; the lines strictly after the first
occurrence of the anchor (`logs.index(last_sent)`) when it is found; the
whole fetch when it is absent (`ValueError`: log rotation / restart). -/
def newLogsDelta {α : Type} [DecidableEq α] (last_sent : Option α)
    (logs : List α) : List α :=
  match last_sent with
  | none => logs
  | some a => if a ∈ logs then logs.drop (logs.indexOf a + 1) else logs

/-- One `stream_logs` tick for one container with fetched tail `logs`:
the `new_logs` payload sent and the updated `last_sent_logs` anchor
(lines 1318-1339).  Nothing is sent — and the anchor is not advanced — when
the fetch or the delta is empty; otherwise the anchor becomes the fetch's
last line. -/
def streamStep {α : Type} [DecidableEq α] (last_sent : Option α)
    (logs : List α) : List α × Option α :=
  if logs.isEmpty then ([], last_sent)
  else
    let nl := newLogsDelta last_sent logs
    if nl.isEmpty then ([], last_sent)
    else (nl, logs.getLast?)

/-- Iterate `streamStep` over the successive fetched tail windows,
collecting the emitted `new_logs` payloads. -/
def streamRun {α : Type} [DecidableEq α] (last_sent : Option α) :
    List (List α) → List (List α)
  | [] => []
  | w :: ws =>
    let p := streamStep last_sent w
    p.1 :: streamRun p.2 ws

/-- `(L.take n).drop m`: the contiguous slice of positions `[m, n)` of `L`.
A `tail=50` fetch from an append-only log whose eventual content is `L` is
such a slice. -/
def sliceW {α : Type} (L : List α) (m n : ℕ) : List α := (L.take n).drop m

/-- The transcript one subscriber accumulates for a service: the
`log_snapshot` payload (`handle_log_subscription`, lines 1266-1291 — which
does **not** touch `last_sent_logs`) followed by every subsequent
`new_logs` payload. -/
def subscriberTranscript {α : Type} [DecidableEq α] (snapshot : List α)
    (last_sent : Option α) (windows : List (List α)) : List α :=
  snapshot ++ (streamRun last_sent windows).flatten

end Relayer

namespace Relayer

/-! ## Structural lemmas about the decider loop -/

theorem unhealthyStep_spec (cfg : Config) (st : DecState) (inp : LoopInput)
    (h : statsInv st) :
    ∃ st' e, loopStep.unhealthyStep cfg st inp = some (st', e) ∧
      st'.stats = st.stats ∧
      ((e = none ∧ st'.active_src = st.active_src) ∨
        (e = some Src.offline ∧ st.active_src = some Src.cam ∧
          st'.active_src = some Src.offline)) := by
  obtain ⟨ls, act, stab, stats⟩ := st
  unfold loopStep.unhealthyStep
  dsimp only at h ⊢
  by_cases hact : act = some Src.cam
  · subst hact
    rw [if_pos rfl]
    by_cases ht : inp.now - ls ≥ cfg.cam_miss_timeout
    · rw [if_pos ht]
      obtain ⟨s, hs⟩ := Option.isSome_iff_exists.mp (h rfl)
      subst hs
      by_cases hok : inp.switchOk
      · rw [if_pos hok]
        exact ⟨_, _, rfl, rfl, Or.inr ⟨rfl, rfl, rfl⟩⟩
      · rw [if_neg hok]
        exact ⟨_, _, rfl, rfl, Or.inl ⟨rfl, rfl⟩⟩
    · rw [if_neg ht]
      exact ⟨_, _, rfl, rfl, Or.inl ⟨rfl, rfl⟩⟩
  · rw [if_neg hact]
    exact ⟨_, _, rfl, rfl, Or.inl ⟨rfl, rfl⟩⟩

theorem loopStep_spec (cfg : Config) (st : DecState) (inp : LoopInput)
    (h : statsInv st) :
    ∃ st' e, loopStep cfg st inp = some (st', e) ∧
      statsInv st' ∧
      ((e = none ∧ st'.active_src = st.active_src) ∨
        (∃ src, e = some src ∧ st.active_src ≠ some src ∧
          st'.active_src = some src)) := by
  obtain ⟨ls, act, stab, stats⟩ := st
  unfold loopStep
  cases hf : inp.fetch with
  | none =>
    obtain ⟨st', e, hstep, hstats, hcase⟩ :=
      unhealthyStep_spec cfg ⟨ls, act, stab, stats⟩ inp h
    refine ⟨st', e, hstep, ?_, ?_⟩
    · intro hc
      rcases hcase with ⟨_, hact⟩ | ⟨_, _, hact⟩
      · rw [hstats]; exact h (hact ▸ hc)
      · rw [hact] at hc; simp at hc
    · rcases hcase with ⟨he, hact⟩ | ⟨he, hcam, hact⟩
      · exact Or.inl ⟨he, hact⟩
      · refine Or.inr ⟨Src.offline, he, ?_, hact⟩
        dsimp only at hcam
        rw [hcam]; simp
  | some s =>
    dsimp only
    by_cases hh : is_cam_alive_and_healthy cfg s = true
    · rw [if_pos hh]
      by_cases hact : act = some Src.cam
      · subst hact
        rw [if_pos rfl]
        exact ⟨_, _, rfl, fun _ => rfl, Or.inl ⟨rfl, rfl⟩⟩
      · rw [if_neg hact]
        cases stab with
        | none => exact ⟨_, _, rfl, fun hc => by simp at hc; simp [hc] at hact,
            Or.inl ⟨rfl, rfl⟩⟩
        | some t0 =>
          dsimp only
          by_cases ht : inp.now - t0 ≥ cfg.cam_back_stability
          · rw [if_pos ht]
            by_cases hok : inp.switchOk
            · rw [if_pos hok]
              exact ⟨_, _, rfl, fun _ => rfl,
                Or.inr ⟨Src.cam, rfl, by simpa using hact, rfl⟩⟩
            · rw [if_neg hok]
              exact ⟨_, _, rfl, fun hc => by simp at hc; simp [hc] at hact,
                Or.inl ⟨rfl, rfl⟩⟩
          · rw [if_neg ht]
            exact ⟨_, _, rfl, fun hc => by simp at hc; simp [hc] at hact,
              Or.inl ⟨rfl, rfl⟩⟩
    · rw [if_neg hh]
      have h' : statsInv ⟨ls, act, stab, some s⟩ := fun _ => rfl
      obtain ⟨st', e, hstep, hstats, hcase⟩ :=
        unhealthyStep_spec cfg ⟨ls, act, stab, some s⟩ inp h'
      refine ⟨st', e, hstep, ?_, ?_⟩
      · intro _; rw [hstats]; rfl
      · rcases hcase with ⟨he, hact⟩ | ⟨he, hcam, hact⟩
        · exact Or.inl ⟨he, hact⟩
        · refine Or.inr ⟨Src.offline, he, ?_, hact⟩
          dsimp only at hcam
          rw [hcam]; simp

theorem loopRun_total_chain (cfg : Config) :
    ∀ (is : List LoopInput) (st : DecState), statsInv st →
      ∃ stf es, loopRun cfg st is = some (stf, es) ∧
        List.Chain' (· ≠ ·) (st.active_src.toList ++ es)
  | [], st, _ => ⟨st, [], rfl, by cases st.active_src <;> simp⟩
  | i :: is, st, h => by
    obtain ⟨st', e, hstep, hinv', hcase⟩ := loopStep_spec cfg st i h
    obtain ⟨stf, es, hrun, hchain⟩ := loopRun_total_chain cfg is st' hinv'
    refine ⟨stf, e.toList ++ es, ?_, ?_⟩
    · unfold loopRun
      rw [hstep]
      dsimp only
      rw [hrun]
    · rcases hcase with ⟨he, hact⟩ | ⟨src, he, hne, hact⟩
      · subst he
        simpa [hact] using hchain
      · subst he
        rw [hact] at hchain
        cases ha : st.active_src with
        | none => simpa using hchain
        | some a =>
          rw [ha] at hne
          simp only [Option.toList_some, List.singleton_append,
            List.cons_append] at hchain ⊢
          exact List.Chain'.cons (by simpa using fun heq => hne (by rw [heq]))
            hchain

end Relayer

namespace Relayer

/-! ## C10: the stale-`stats` reads in the unhealthy branch never fail -/

/-- **C10.** For every initial switch outcome, start time and input sequence,
the monitoring loop never raises an unbound-variable error on the
`stats["exists"]` / `stats["bw_video"]` reads of the LIVE-and-unhealthy
branch: `active_src = "cam"` requires an earlier successful fetch that bound
`stats`, so `loopRun` always returns `some`. -/
theorem C10_theorem (cfg : Config) (ok0 : Bool) (t0 : ℚ)
    (inputs : List LoopInput) :
    (loopRun cfg (initState ok0 t0).1 inputs).isSome := by
  have hinv : statsInv (initState ok0 t0).1 := by
    unfold initState statsInv
    cases ok0 <;> simp
  obtain ⟨stf, es, hrun, _⟩ := loopRun_total_chain cfg inputs _ hinv
  rw [hrun]; rfl

/-! ## C2: no two consecutive identical emitted scenes -/

/-- **C2.** For every sample sequence fed to the decider — including probe
failures (`fetch = none`) and failing switch calls — the sequence of
successfully emitted scene-switch commands contains no two consecutive
identical scenes. -/
theorem C2_theorem (cfg : Config) (ok0 : Bool) (t0 : ℚ)
    (inputs : List LoopInput) (es : List Src)
    (h : deciderEmissions cfg ok0 t0 inputs = some es) :
    List.Chain' (· ≠ ·) es := by
  have hinv : statsInv (initState ok0 t0).1 := by
    unfold initState statsInv
    cases ok0 <;> simp
  obtain ⟨stf, es', hrun, hchain⟩ := loopRun_total_chain cfg inputs _ hinv
  unfold deciderEmissions at h
  rw [hrun] at h
  have hes : es = (initState ok0 t0).2.toList ++ es' := by
    simpa using h.symm
  subst hes
  have hsame : (initState ok0 t0).2 = (initState ok0 t0).1.active_src := by
    unfold initState
    cases ok0 <;> simp
  rw [hsame]
  exact hchain

/-- Witness for C2 at a concrete input: startup succeeds, no loop
iterations; the emission trace is `[offline]`. -/
theorem C2_witness : List.Chain' (· ≠ ·) [Src.offline] :=
  C2_theorem ⟨300, 3, 2⟩ true 0 [] [Src.offline] rfl

end Relayer

namespace Relayer

/-! ## C3: the per-sample health predicate vs. the spec formula -/

/-- **C3, counterexample.** The claim says `healthy` equals
`exists ∧ publishing ∧ (video_bw_bps × 8 / 1000) ≥ MIN_BITRATE_KBPS`
including the edge case `video_bw_bps = 0` with `MIN_BITRATE_KBPS = 0`.
At exactly that edge case the code returns `false` (the `bw == 0` early
return in `check_bitrate_sufficient`) while the formula yields `true`. -/
theorem C3_counterexample :
    is_cam_alive_and_healthy ⟨0, 3, 2⟩ ⟨true, true, 0, 0⟩ = false ∧
    healthySpecFormula ⟨0, 3, 2⟩ ⟨true, true, 0, 0⟩ = true := by
  refine ⟨rfl, ?_⟩
  simp only [healthySpecFormula, Bool.true_and, decide_eq_true_eq]
  norm_num

/-- **C3, amended.** For every `StreamSample` and every configured
`MIN_BITRATE_KBPS`, the code's health predicate equals the spec formula
strengthened with the extra conjunct `video_bw_bps ≠ 0`: `healthy` =
`exists ∧ publishing ∧ video_bw_bps ≠ 0 ∧ (video_bw_bps × 8 / 1000) ≥
MIN_BITRATE_KBPS`. -/
theorem C3_amended (cfg : Config) (s : Sample) :
    is_cam_alive_and_healthy cfg s =
      (s.exists_ && s.publishing && decide (s.bw_video ≠ 0) &&
        decide (((s.bw_video : ℚ) * 8) / 1000 ≥ (cfg.min_bitrate_kbps : ℚ))) := by
  unfold is_cam_alive_and_healthy check_bitrate_sufficient
  by_cases h : s.bw_video = 0 <;> simp [h]

/-! ## C1: promotion from FALLBACK to LIVE -/

/-- **C1, counterexample.** With `CAM_BACK_STABILITY = 0`, the decider in
FALLBACK (`active_src = offline`, `cam_stable_since = None`) receiving its
first healthy sample at `now = 0` emits nothing: it only arms the stability
timer (`cam_stable_since := 0`), even though `now − (stable_since ?? now) =
0 ≥ CAM_BACK_STABILITY`, where the claim says `SWITCH(LIVE)` must be emitted. -/
theorem C1_counterexample :
    loopStep ⟨300, 3, 0⟩ ⟨0, some Src.offline, none, none⟩
        ⟨some ⟨true, true, 100000, 1⟩, 0, true⟩ =
      some (⟨0, some Src.offline, some 0, some ⟨true, true, 100000, 1⟩⟩, none) ∧
    (0 : ℚ) - (Option.getD (none : Option ℚ) 0) ≥
      (Config.mk 300 3 0).cam_back_stability := by
  have hh : is_cam_alive_and_healthy ⟨300, 3, 0⟩ ⟨true, true, 100000, 1⟩ = true := by
    norm_num [is_cam_alive_and_healthy, check_bitrate_sufficient]
  constructor
  · unfold loopStep
    dsimp only
    rw [if_pos hh]
    norm_num
    intro hc
    exact absurd hc (by decide)
  · norm_num

/-- **C1, amended.** In FALLBACK, a healthy sample at monotonic time `now`
always updates `last_healthy` to `now`; when `stable_since` was null it is
set to `now` and *no* command is emitted on that sample (even when
`CAM_BACK_STABILITY = 0`); `SWITCH(LIVE)` is emitted (transitioning to LIVE
and clearing `stable_since`) exactly when `stable_since` was already
non-null — i.e. set by an earlier healthy sample — and
`now − stable_since ≥ CAM_BACK_STABILITY`, the timer-boundary sample
included. -/
theorem C1_amended (cfg : Config) (st : DecState) (inp : LoopInput) (s : Sample)
    (hf : inp.fetch = some s)
    (hh : is_cam_alive_and_healthy cfg s = true)
    (ha : st.active_src ≠ some Src.cam)
    (hok : inp.switchOk = true) :
    ∃ st' e, loopStep cfg st inp = some (st', e) ∧
      st'.last_seen_cam = inp.now ∧
      (e = some Src.cam ↔
        ∃ t0, st.cam_stable_since = some t0 ∧
          inp.now - t0 ≥ cfg.cam_back_stability) ∧
      (st.cam_stable_since = none →
        st'.cam_stable_since = some inp.now ∧ e = none) ∧
      (e = some Src.cam →
        st'.active_src = some Src.cam ∧ st'.cam_stable_since = none) := by
  obtain ⟨ls, act, stab, stats⟩ := st
  dsimp only at ha ⊢
  unfold loopStep
  rw [hf]
  dsimp only
  rw [if_pos hh]
  rw [if_neg ha]
  cases stab with
  | none =>
    refine ⟨_, _, rfl, rfl, ?_, fun _ => ⟨rfl, rfl⟩, ?_⟩
    · exact iff_of_false (fun hc => by cases hc)
        (fun h => by obtain ⟨t0, ht, _⟩ := h; cases ht)
    · intro hc; cases hc
  | some t0 =>
    dsimp only
    by_cases ht : inp.now - t0 ≥ cfg.cam_back_stability
    · rw [if_pos ht, if_pos hok]
      refine ⟨_, _, rfl, rfl, ?_, ?_, fun _ => ⟨rfl, rfl⟩⟩
      · exact iff_of_true rfl ⟨t0, rfl, ht⟩
      · intro hc; cases hc
    · rw [if_neg ht]
      refine ⟨_, _, rfl, rfl, ?_, ?_, ?_⟩
      · refine iff_of_false (fun hc => by cases hc) ?_
        rintro ⟨t0', ht0', hge⟩
        cases ht0'
        exact ht hge
      · intro hc; cases hc
      · intro hc; cases hc

/-! ## Lemmas about subscriber removal -/

theorem mem_unregister_clients (st : WsState) (c x : Client) :
    x ∈ (unregister_client st c).clients ↔ x ∈ st.clients ∧ x ≠ c := by
  simp [unregister_client, List.mem_filter]

theorem removedEverywhere_unregister_self (st : WsState) (c : Client) :
    removedEverywhere c (unregister_client st c) := by
  constructor
  · simp [unregister_client, List.mem_filter]
  · intro p hp
    simp only [unregister_client, List.mem_filter, List.mem_map] at hp
    obtain ⟨⟨q, _, rfl⟩, _⟩ := hp
    simp [List.mem_filter]

theorem removedEverywhere_unregister_mono (st : WsState) (c c' : Client)
    (h : removedEverywhere c st) :
    removedEverywhere c (unregister_client st c') := by
  obtain ⟨h1, h2⟩ := h
  constructor
  · intro hc
    exact h1 ((mem_unregister_clients st c' c).mp hc).1
  · intro p hp hcp
    simp only [unregister_client, List.mem_filter, List.mem_map] at hp
    obtain ⟨⟨q, hq, rfl⟩, _⟩ := hp
    exact h2 q hq (List.mem_of_mem_filter hcp)

theorem removedEverywhere_foldl_mono (c : Client) :
    ∀ (ds : List Client) (st : WsState), removedEverywhere c st →
      removedEverywhere c (ds.foldl unregister_client st)
  | [], _, h => h
  | d :: ds, st, h =>
    removedEverywhere_foldl_mono c ds _
      (removedEverywhere_unregister_mono st c d h)

theorem removedEverywhere_foldl (c : Client) :
    ∀ (ds : List Client) (st : WsState), c ∈ ds →
      removedEverywhere c (ds.foldl unregister_client st)
  | d :: ds, st, h => by
    rcases List.mem_cons.mp h with rfl | hmem
    · exact removedEverywhere_foldl_mono c ds _
        (removedEverywhere_unregister_self st c)
    · exact removedEverywhere_foldl c ds _ hmem

/-! ## C8: subscriber removal on send failure -/

/-- **C8, counterexample.** A send failure during `new_logs` streaming does
*not* remove the subscriber from the client set or from other services'
subscription sets: client `1` fails while streaming container `"x"` logs,
and afterwards it is still in `clients` and still subscribed to `"y"`. -/
theorem C8_counterexample :
    (stream_logs_cleanup ⟨[1, 2], [("x", [1, 2]), ("y", [1])]⟩ "x"
        (fun c => c == 1)).2 =
      ⟨[1, 2], [("x", [2]), ("y", [1])]⟩ ∧
    ¬removedEverywhere 1
      (stream_logs_cleanup ⟨[1, 2], [("x", [1, 2]), ("y", [1])]⟩ "x"
        (fun c => c == 1)).2 := by
  constructor
  · decide
  · exact fun h => h.1 (by decide)

/-- **C8, amended.** A send failure during a `status_change` (equally
`scene_change`/`privacy_change`) broadcast removes the failing subscriber
from the client set and from every log-subscription set while the remaining
clients still receive the message; a send failure during `new_logs`
streaming removes the failing subscriber only from the affected service's
subscription set — the client set and other services' sets are untouched —
while the remaining subscribers of that service still receive the delta;
a failure sending `initial_state` removes nothing. -/
theorem C8_amended (st : WsState) (fails : Client → Bool) (cn : String)
    (c : Client) :
    ((c ∈ (broadcast_status_change st fails).1 ↔
        c ∈ st.clients ∧ fails c = false) ∧
      (c ∈ st.clients → fails c = true →
        removedEverywhere c (broadcast_status_change st fails).2)) ∧
    ((c ∈ (stream_logs_cleanup st cn fails).1 ↔
        c ∈ lookupSubs st cn ∧ fails c = false) ∧
      (stream_logs_cleanup st cn fails).2.clients = st.clients ∧
      (fails c = true → ∀ p ∈ (stream_logs_cleanup st cn fails).2.logSubs,
        p.1 = cn → c ∉ p.2)) ∧
    (∀ b, register_client st c b = ⟨c :: st.clients, st.logSubs⟩) := by
  refine ⟨⟨?_, ?_⟩, ⟨?_, rfl, ?_⟩, fun _ => rfl⟩
  · simp [broadcast_status_change, List.mem_filter]
  · intro hc hf
    exact removedEverywhere_foldl c _ _
      (List.mem_filter.mpr ⟨hc, hf⟩)
  · simp [stream_logs_cleanup, List.mem_filter]
  · intro hf p hp hpcn
    simp only [stream_logs_cleanup, List.mem_map] at hp
    obtain ⟨q, hq, rfl⟩ := hp
    by_cases hqcn : q.1 = cn
    · rw [if_pos hqcn]
      intro hcq
      have := (List.mem_filter.mp hcq).2
      rw [hf] at this
      cases this
    · rw [if_neg hqcn] at hpcn ⊢
      exact absurd hpcn hqcn

/-- Witness for C8 at a concrete state: client `1` fails during a
`status_change` broadcast and is removed from the client set and from both
subscription sets, while client `2` still receives the message. -/
theorem C8_witness :
    (2 ∈ (broadcast_status_change ⟨[1, 2], [("x", [1, 2]), ("y", [1])]⟩
        (fun c => c == 1)).1) ∧
    removedEverywhere 1 (broadcast_status_change ⟨[1, 2], [("x", [1, 2]), ("y", [1])]⟩
        (fun c => c == 1)).2 := by
  constructor
  · exact ((C8_amended ⟨[1, 2], [("x", [1, 2]), ("y", [1])]⟩
      (fun c => c == 1) "x" 2).1.1).mpr (by decide)
  · exact (C8_amended ⟨[1, 2], [("x", [1, 2]), ("y", [1])]⟩
      (fun c => c == 1) "x" 1).1.2 (by decide) (by decide)

/-! ## C4: callbacks and the SceneState mutex -/

/-- **C4 (code bug).** Every mutating accessor of the shared scene/privacy
cell invokes the registered change callbacks *while still holding* the
mutex: in `set_scene`, `enable_privacy` and `disable_privacy` the
`_trigger_change_callbacks` call sits inside the `with self._lock:` block
(despite the code's own comment "Trigger callbacks outside the lock"), so a
mutating call that changes state runs its callbacks under the lock. -/
theorem C4_code_bug :
    callbackWhileLocked false (setSceneTrace "unknown" "LIVE" 1) = true ∧
    callbackWhileLocked false (enablePrivacyTrace false 1) = true ∧
    callbackWhileLocked false (disablePrivacyTrace true 1) = true := by
  decide

/-! ## C9: zero-time timestamp filtering -/

/-- **C9 (code bug).** `is_valid_timestamp` accepts the 1970-epoch timestamp
(it only rejects `""` and the `0001-`/`0000-` prefixes), so an exited
container whose runtime reports `FinishedAt = 1970-01-01T00:00:00Z` has the
timestamp reported as present and a human-readable delta computed from it —
the code's own comment says the check covers "year 0001 or 1970 epoch". -/
theorem C9_code_bug :
    is_valid_timestamp "1970-01-01T00:00:00Z" = true ∧
    _format_detailed_status (fun _ => some 0) 90
        ⟨"exited", "", 0, "1970-01-01T00:00:00Z", "1970-01-01T00:00:00Z"⟩ =
      ("Exited (0) 1 minute ago", some "1970-01-01T00:00:00Z",
        some "1970-01-01T00:00:00Z") := by
  decide

/-! ## C6: `list_containers` degrades instead of raising -/

/-- **C6.** For every compose manifest and every failing runtime list call
(timeout or API error, the `docker.errors.DockerException` branch),
`list_containers` returns a result — it does not propagate the failure —
in which every manifest-declared service appears, each with lifecycle
`unknown`, together with a warning flag. -/
theorem C6_theorem (parse : String → Option ℤ) (now : ℤ)
    (services : List ServiceInfo) (err : String) :
    ∃ r, list_containers parse now services (Except.error err) = Except.ok r ∧
      r.warning.isSome ∧
      r.containers.map ContainerEntry.name = services.map ServiceInfo.name ∧
      ∀ c ∈ r.containers, c.status = "unknown" := by
  refine ⟨_, rfl, rfl, ?_, ?_⟩
  · simp [List.map_map, Function.comp]
  · intro c hc
    simp only [List.mem_map] at hc
    obtain ⟨svc, _, rfl⟩ := hc
    rfl

/-! ## C7: HTTP status for requests naming a missing container -/

/-- **C7, counterexample.** A `POST /container/x/start` naming a service
whose runtime container does not exist is answered 202 (the lifecycle
handlers spawn a background worker and acknowledge immediately), not 404 as
the claim requires. -/
theorem C7_counterexample :
    do_POST (fun _ => Except.error DockerErr.notFound) "/container/x/start" = 202 := by
  decide

/-- **C7, amended.** For a service whose runtime container does not exist,
the synchronous GET endpoints `/container/<s>/status` and
`/container/<s>/logs` answer 404, while the POST lifecycle endpoints
`/container/<s>/{start,stop,restart,create-and-start}` answer 202
unconditionally — the missing container is only discovered by the
background worker; 404 on POST is reserved for unknown actions and
unmatched paths. -/
theorem C7_amended (services : List ServiceInfo) (project : String)
    (containersGet : String → Except DockerErr RuntimeContainer)
    (short path : String)
    (hget : containersGet (get_container_name services project short) =
      Except.error DockerErr.notFound)
    (hp : ¬(path = "/health" ∨ path = "/scene" ∨ path = "/privacy" ∨
      path = "/state" ∨ path = "/containers")) :
    (pathParts path = ["container", short, "status"] →
      do_GET services project containersGet path = 404) ∧
    (pathParts path = ["container", short, "logs"] →
      do_GET services project containersGet path = 404) ∧
    (∀ action, (action = "start" ∨ action = "stop" ∨ action = "restart" ∨
        action = "create-and-start") →
      pathParts path = ["container", short, action] →
      do_POST containersGet path = 202) := by
  push_neg at hp
  obtain ⟨h1, h2, h3, h4, h5⟩ := hp
  refine ⟨?_, ?_, ?_⟩
  · intro hparts
    unfold do_GET
    rw [if_neg h1, if_neg h2, if_neg h3, if_neg h4, if_neg h5, hparts]
    dsimp only
    rw [if_pos ⟨rfl, rfl⟩]
    unfold get_statusE
    rw [hget]
  · intro hparts
    unfold do_GET
    rw [if_neg h1, if_neg h2, if_neg h3, if_neg h4, if_neg h5, hparts]
    dsimp only
    rw [if_neg (by simp), if_pos ⟨rfl, rfl⟩]
    unfold get_logsE
    rw [hget]
  · intro action hact hparts
    unfold do_POST
    rw [hparts]
    dsimp only
    rw [if_pos rfl, if_pos hact]

/-- Witness for C7 at concrete inputs: with a runtime in which no container
exists, `GET /container/x/status` answers 404 and
`POST /container/x/start` answers 202. -/
theorem C7_witness :
    do_GET [] "relayer" (fun _ => Except.error DockerErr.notFound)
        "/container/x/status" = 404 ∧
    do_POST (fun _ => Except.error DockerErr.notFound)
        "/container/x/start" = 202 := by
  constructor
  · exact (C7_amended [] "relayer" (fun _ => Except.error DockerErr.notFound)
      "x" "/container/x/status" rfl (by decide)).1 (by decide)
  · exact (C7_amended [] "relayer" (fun _ => Except.error DockerErr.notFound)
      "x" "/container/x/start" rfl (by decide)).2.2 "start" (Or.inl rfl) (by decide)

/-- Witness for C1 at a concrete input: in FALLBACK with the timer armed at
`t0 = 0` and `CAM_BACK_STABILITY = 2`, a healthy sample arriving exactly at
the boundary `now = 2` emits `SWITCH(cam)`. -/
theorem C1_witness :
    ∃ st' e,
      loopStep ⟨300, 3, 2⟩
          ⟨0, some Src.offline, some 0, some ⟨true, true, 100000, 1⟩⟩
          ⟨some ⟨true, true, 100000, 1⟩, 2, true⟩ = some (st', e) ∧
      e = some Src.cam := by
  obtain ⟨st', e, hstep, _, hiff, _, _⟩ :=
    C1_amended ⟨300, 3, 2⟩
      ⟨0, some Src.offline, some 0, some ⟨true, true, 100000, 1⟩⟩
      ⟨some ⟨true, true, 100000, 1⟩, 2, true⟩ ⟨true, true, 100000, 1⟩
      rfl
      (by norm_num [is_cam_alive_and_healthy, check_bitrate_sufficient])
      (by simp)
      rfl
  exact ⟨st', e, hstep, hiff.mpr ⟨0, rfl, by norm_num⟩⟩

end Relayer

namespace Relayer

/-! ## Lemmas about log-tail slices -/

open List

theorem sliceW_sublist {α : Type} (L : List α) (m n : ℕ) : sliceW L m n <+ L :=
  (List.drop_sublist m (L.take n)).trans (List.take_sublist n L)

theorem sliceW_length {α : Type} (L : List α) (m n : ℕ) (hn : n ≤ L.length) :
    (sliceW L m n).length = n - m := by
  simp [sliceW, List.length_drop, List.length_take, Nat.min_eq_left hn]

theorem sliceW_get? {α : Type} (L : List α) (m n i : ℕ) (h : m + i < n) :
    (sliceW L m n).get? i = L.get? (m + i) := by
  unfold sliceW
  rw [List.get?_drop, List.get?_take h]

theorem sliceW_getLast? {α : Type} (L : List α) (m n : ℕ) (hm : m < n)
    (hn : n ≤ L.length) : (sliceW L m n).getLast? = L.get? (n - 1) := by
  rw [List.getLast?_eq_get?, sliceW_length L m n hn,
    sliceW_get? L m n _ (by omega)]
  congr 1
  omega

theorem sliceW_ne_nil {α : Type} (L : List α) (m n : ℕ) (hm : m < n)
    (hn : n ≤ L.length) : sliceW L m n ≠ [] := by
  intro h
  have hlen := sliceW_length L m n hn
  rw [h] at hlen
  simp only [List.length_nil] at hlen
  omega

theorem sliceW_drop {α : Type} (L : List α) (m n k : ℕ) :
    (sliceW L m n).drop k = sliceW L (m + k) n := by
  simp only [sliceW, List.drop_drop]

theorem mem_sliceW_of_get? {α : Type} (L : List α) {m n p : ℕ} {a : α}
    (h1 : m ≤ p) (h2 : p < n) (hp : L.get? p = some a) : a ∈ sliceW L m n := by
  have h : (sliceW L m n).get? (p - m) = some a := by
    rw [sliceW_get? L m n _ (by omega), show m + (p - m) = p by omega]
    exact hp
  exact List.get?_mem h

theorem nodup_indexOf_eq {α : Type} [DecidableEq α] {L : List α}
    (hL : L.Nodup) {p : ℕ} {a : α} (hp : L.get? p = some a) :
    L.indexOf a = p := by
  have ha : a ∈ L := List.get?_mem hp
  have h1 : L.get? (L.indexOf a) = some a := List.indexOf_get? ha
  have hplt : p < L.length := by
    obtain ⟨h, _⟩ := List.get?_eq_some.mp hp
    exact h
  have hilt : L.indexOf a < L.length := List.indexOf_lt_length.mpr ha
  by_contra hne
  rcases Nat.lt_or_ge (L.indexOf a) p with h | h
  · exact List.nodup_iff_get?_ne_get?.mp hL _ _ h hplt (h1.trans hp.symm)
  · have : p < L.indexOf a := lt_of_le_of_ne h (fun heq => hne heq.symm)
    exact List.nodup_iff_get?_ne_get?.mp hL _ _ this hilt (hp.trans h1.symm)

theorem indexOf_sliceW {α : Type} [DecidableEq α] {L : List α} (hL : L.Nodup)
    {m n : ℕ} (hn : n ≤ L.length) {a : α} (ha : a ∈ sliceW L m n) :
    m ≤ L.indexOf a ∧ L.indexOf a < n ∧
      (sliceW L m n).indexOf a = L.indexOf a - m := by
  have hWlen : (sliceW L m n).length = n - m := sliceW_length L m n hn
  have hmn : m < n := by
    have := List.length_pos.mpr (List.ne_nil_of_mem ha)
    omega
  have hW0 : (L.take n).Nodup := List.Nodup.sublist (List.take_sublist n L) hL
  have haW0 : a ∈ L.take n := (List.drop_sublist m (L.take n)).mem ha
  have hnotTake : a ∉ (L.take n).take m := by
    intro hmem
    exact List.disjoint_take_drop hW0 (le_refl m) hmem ha
  have hW0len : (L.take n).length = n := by
    rw [List.length_take]
    omega
  have htakelen : ((L.take n).take m).length = m := by
    rw [List.length_take]
    omega
  have hsplit : (L.take n).indexOf a =
      m + ((L.take n).drop m).indexOf a := by
    have h : List.indexOf a ((L.take n).take m ++ (L.take n).drop m) =
        ((L.take n).take m).length + List.indexOf a ((L.take n).drop m) :=
      List.indexOf_append_of_not_mem hnotTake
    rw [List.take_append_drop, htakelen] at h
    exact h
  have hfull : L.indexOf a = (L.take n).indexOf a := by
    have h : List.indexOf a (L.take n ++ L.drop n) =
        List.indexOf a (L.take n) :=
      List.indexOf_append_of_mem haW0
    rw [List.take_append_drop] at h
    exact h
  have hWidx : ((L.take n).drop m).indexOf a < n - m := by
    have := List.indexOf_lt_length.mpr ha
    rw [hWlen] at this
    exact this
  refine ⟨by omega, by omega, ?_⟩
  show ((L.take n).drop m).indexOf a = L.indexOf a - m
  omega

theorem drop_decompose {α : Type} (L : List α) (k n : ℕ) (hk : k ≤ n)
    (hn : n ≤ L.length) : L.drop k = (L.take n).drop k ++ L.drop n := by
  have h1 : k ≤ (L.take n).length := by
    rw [List.length_take]
    omega
  conv_lhs => rw [← List.take_append_drop n L]
  exact List.drop_append_of_le_length h1

theorem drop_sublist_drop_of_le {α : Type} (l : List α) {k m : ℕ}
    (h : k ≤ m) : l.drop m <+ l.drop k := by
  rw [show m = k + (m - k) by omega, ← List.drop_drop]
  exact List.drop_sublist _ _

/-- The core invariant of the log-tail streaming loop: running `streamStep`
over tail windows of an append-only log `L` with distinct lines — window
`(m, n)` is the slice of positions `[m, n)`, the upper bounds nondecreasing
— emits, in total, a sublist of the part of `L` after the current anchor.
`b` is the number of positions already consumed: `0` for no anchor,
`p + 1` when the anchor is the line at position `p`. -/
theorem streamRun_flatten_sublist {α : Type} [DecidableEq α] {L : List α}
    (hL : L.Nodup) :
    ∀ (ws : List (ℕ × ℕ)) (state : Option α) (b : ℕ),
      (state = none → b = 0) →
      (∀ a, state = some a → ∃ p, b = p + 1 ∧ L.get? p = some a) →
      (∀ q ∈ ws, q.1 ≤ q.2 ∧ q.2 ≤ L.length ∧ b ≤ q.2) →
      List.Pairwise (fun q r => q.2 ≤ r.2) ws →
      (streamRun state (ws.map fun q => sliceW L q.1 q.2)).flatten <+ L.drop b := by
  intro ws
  induction ws with
  | nil =>
    intro state b _ _ _ _
    simp [streamRun]
  | cons q ws ih =>
    intro state b hnone hsome hbounds hpair
    obtain ⟨m, n⟩ := q
    obtain ⟨hmn, hnL, hbn⟩ := hbounds (m, n) (List.mem_cons_self _ _)
    have hboundsTail : ∀ r ∈ ws, r.1 ≤ r.2 ∧ r.2 ≤ L.length ∧ b ≤ r.2 :=
      fun r hr => hbounds r (List.mem_cons_of_mem _ hr)
    have hheadLe : ∀ r ∈ ws, n ≤ r.2 := fun r hr =>
      (List.pairwise_cons.mp hpair).1 r hr
    have hpairTail := (List.pairwise_cons.mp hpair).2
    simp only [List.map_cons, streamRun, List.flatten_cons]
    by_cases hWe : (sliceW L m n).isEmpty
    · have hstep : streamStep state (sliceW L m n) = ([], state) := by
        unfold streamStep
        rw [if_pos hWe]
      rw [hstep]
      simpa using ih state b hnone hsome hboundsTail hpairTail
    · have hWne : sliceW L m n ≠ [] := by
        intro h
        rw [h] at hWe
        exact hWe rfl
      have hmltn : m < n := by
        have hlen := sliceW_length L m n hnL
        have := List.length_pos.mpr hWne
        omega
    -- the new anchor after an emission: the last line of the window
      obtain ⟨a', hga'⟩ : ∃ a', L.get? (n - 1) = some a' := by
        cases hg : L.get? (n - 1) with
        | none =>
          have := List.get?_eq_none.mp hg
          omega
        | some x => exact ⟨x, rfl⟩
      have hlast : (sliceW L m n).getLast? = some a' := by
        rw [sliceW_getLast? L m n hmltn hnL]
        exact hga'
      have ihEmit := ih (some a') n (fun h => nomatch h)
        (fun a'' h => by
          cases h
          exact ⟨n - 1, by omega, hga'⟩)
        (fun r hr => ⟨(hboundsTail r hr).1, (hboundsTail r hr).2.1, hheadLe r hr⟩)
        hpairTail
      cases hstate : state with
      | none =>
        have hb0 : b = 0 := hnone hstate
        have hstep : streamStep (none : Option α) (sliceW L m n) =
            (sliceW L m n, (sliceW L m n).getLast?) := by
          simp only [streamStep, newLogsDelta]
          rw [if_neg hWe, if_neg hWe]
        rw [hstep, hlast, hb0, List.drop_zero]
        conv_rhs => rw [← List.take_append_drop n L]
        exact List.Sublist.append (List.drop_sublist m (L.take n)) ihEmit
      | some a =>
        obtain ⟨p, hb, hgp⟩ := hsome a hstate
        by_cases haW : a ∈ sliceW L m n
        · obtain ⟨hmi, hin, hidx⟩ := indexOf_sliceW hL hnL haW
          have hidxL : L.indexOf a = p := nodup_indexOf_eq hL hgp
          rw [hidxL] at hmi hin hidx
          have hnl : newLogsDelta (some a) (sliceW L m n) =
              sliceW L (p + 1) n := by
            unfold newLogsDelta
            dsimp only
            rw [if_pos haW, hidx, sliceW_drop]
            congr 1
            omega
          by_cases hnle : (newLogsDelta (some a) (sliceW L m n)).isEmpty
          · have hstep : streamStep (some a) (sliceW L m n) =
                ([], some a) := by
              simp only [streamStep]
              rw [if_neg hWe, if_pos hnle]
            rw [hstep]
            have hres := ih (some a) b (fun h => nomatch h)
              (fun a'' h => by cases h; exact ⟨p, hb, hgp⟩)
              (fun r hr => ⟨(hboundsTail r hr).1, (hboundsTail r hr).2.1,
                le_trans hbn (hheadLe r hr)⟩)
              hpairTail
            simpa using hres
          · have hstep : streamStep (some a) (sliceW L m n) =
                (newLogsDelta (some a) (sliceW L m n),
                  (sliceW L m n).getLast?) := by
              simp only [streamStep]
              rw [if_neg hWe, if_neg hnle]
            rw [hstep, hlast, hnl, hb]
            rw [drop_decompose L (p + 1) n (by omega) hnL]
            exact List.Sublist.append (List.Sublist.refl _) ihEmit
        · have hpm : p < m := by
            by_contra hge
            push_neg at hge
            exact haW (mem_sliceW_of_get? L hge (by omega) hgp)
          have hnlW : newLogsDelta (some a) (sliceW L m n) = sliceW L m n := by
            simp only [newLogsDelta]
            rw [if_neg haW]
          have hnle : ¬(newLogsDelta (some a) (sliceW L m n)).isEmpty = true := by
            rw [hnlW]
            exact hWe
          have hstep : streamStep (some a) (sliceW L m n) =
              (sliceW L m n, (sliceW L m n).getLast?) := by
            simp only [streamStep]
            rw [if_neg hWe, if_neg hnle, hnlW]
          rw [hstep, hlast, hb]
          rw [drop_decompose L (p + 1) n (by omega) hnL]
          exact List.Sublist.append
            (drop_sublist_drop_of_le (L.take n) (by omega)) ihEmit

/-! ## C5: at-most-once delivery of log lines -/

/-- **C5, counterexample.** Subscribing sends a `log_snapshot` but does not
establish a `last_sent_logs` anchor, so the first streaming tick re-sends
the whole fetched window: with log `[0, 1]` never rotated (every window is
the full log), the subscriber's transcript is `[0, 1, 0, 1]` — line `0`
(and `1`) is delivered twice even though no anchor was ever lost. -/
theorem C5_counterexample :
    subscriberTranscript [0, 1] (none : Option ℕ) [sliceW [0, 1] 0 2] =
      [0, 1, 0, 1] ∧
    ¬(subscriberTranscript [0, 1] (none : Option ℕ)
      [sliceW [0, 1] 0 2]).Nodup := by
  constructor <;> decide

/-- **C5, amended.** The at-most-once guarantee holds for the concatenation
of the `new_logs` messages alone: for an append-only log with distinct
lines (each `tail` fetch a slice `[m, n)` of the eventual log `L` with
nondecreasing upper ends), the flattened sequence of emitted deltas
contains each line at most once; only log rotation (fetches that are not
such slices) permits re-emission.  The initial `log_snapshot` is outside
the guarantee, since subscribing does not establish an anchor and the
snapshot may overlap the next delta. -/
theorem C5_amended {α : Type} [DecidableEq α] (L : List α) (hL : L.Nodup)
    (ws : List (ℕ × ℕ))
    (hw : ∀ q ∈ ws, q.1 ≤ q.2 ∧ q.2 ≤ L.length)
    (hmono : List.Pairwise (fun q r => q.2 ≤ r.2) ws) :
    ((streamRun none (ws.map fun q => sliceW L q.1 q.2)).flatten).Nodup := by
  have h := streamRun_flatten_sublist hL ws none 0 (fun _ => rfl)
    (fun a h => nomatch h)
    (fun q hq => ⟨(hw q hq).1, (hw q hq).2, Nat.zero_le _⟩) hmono
  rw [List.drop_zero] at h
  exact List.Nodup.sublist h hL

/-- Witness for C5 at a concrete run: log `[0, 1, 2, 3]` grows while three
ticks fetch the windows `[0, 2)`, `[1, 3)`, `[3, 4)`; the emitted deltas
flatten to a duplicate-free sequence. -/
theorem C5_witness :
    ((streamRun (none : Option ℕ)
      ([(0, 2), (1, 3), (3, 4)].map fun q =>
        sliceW [0, 1, 2, 3] q.1 q.2)).flatten).Nodup :=
  C5_amended [0, 1, 2, 3] (by decide) [(0, 2), (1, 3), (3, 4)]
    (by decide) (by decide)

end Relayer
